import Mathlib

/-!
Verification development for the Telegram content-organizer bot
(`functions/bot`): a shallow embedding of the tag-assignment
conversational flow (`database.go`, `message.go`) together with proofs
about its prompt encoding/decoding, tag selection, UI-mode choice and
error handling.

Conventions of the embedding:
* Go strings are modelled as `List Char` (one element per rune).  The
  byte-level functions (`truncateText`, which truncates at byte
  positions) are modelled over `List Nat` byte sequences instead.
* Database rows are explicit lists; SQL queries become pure functions
  over them.  `QueryRow ... Scan` returning `sql.ErrNoRows` becomes
  `Option`.  Connection-level failures are outside the model.
* Handlers return the updated database together with the list of
  outbound effects (sent messages / message edits) instead of calling
  the Telegram client.
-/

namespace TgBot

/-- Character class of Go's `unicode.IsSpace` (the White_Space property),
used by `strings.TrimSpace`. -/
def goIsSpace (c : Char) : Bool :=
  decide ((9 ≤ c.toNat ∧ c.toNat ≤ 13) ∨ c.toNat = 32 ∨ c.toNat = 133 ∨
    c.toNat = 160 ∨ c.toNat = 0x1680 ∨ (0x2000 ≤ c.toNat ∧ c.toNat ≤ 0x200A) ∨
    c.toNat = 0x2028 ∨ c.toNat = 0x2029 ∨ c.toNat = 0x202F ∨
    c.toNat = 0x205F ∨ c.toNat = 0x3000)

/-- Go `strings.TrimSpace`: drop leading and trailing white space. -/
def trimSpace (s : List Char) : List Char :=
  ((s.dropWhile goIsSpace).reverse.dropWhile goIsSpace).reverse

/-- Index (in elements) of the first occurrence of `pat` in `s`, if any.
Helper for `goIndex`. -/
def indexAux (pat : List Char) : List Char → Option Nat
  | [] => if pat.isPrefixOf ([] : List Char) then some 0 else none
  | c :: rest =>
    if pat.isPrefixOf (c :: rest) then some 0
    else (indexAux pat rest).map (· + 1)

/-- Go `strings.Index`: position of the first occurrence of `pat` in `s`,
or `-1` when there is none.  (On the inputs the bot handles the patterns
are ASCII, so rune positions and Go's byte positions coincide along every
code path that uses the result.) -/
def goIndex (s pat : List Char) : Int :=
  match indexAux pat s with
  | some n => (n : Int)
  | none => -1

/-- Go `strings.Split` with a single-character separator. -/
def goSplit (sep : Char) : List Char → List (List Char)
  | [] => [[]]
  | c :: rest =>
    if c = sep then [] :: goSplit sep rest
    else
      match goSplit sep rest with
      | [] => [[c]]
      | p :: ps => (c :: p) :: ps

/-- Value of a decimal digit character. -/
def charToDigit? (c : Char) : Option Nat :=
  if 48 ≤ c.toNat ∧ c.toNat ≤ 57 then some (c.toNat - 48) else none

/-- Accumulating decimal parse of a digit string. -/
def digitsToNatAux : List Char → Nat → Option Nat
  | [], acc => some acc
  | c :: cs, acc =>
    match charToDigit? c with
    | some d => digitsToNatAux cs (acc * 10 + d)
    | none => none

/-- Parse a non-empty all-digit string as a natural number. -/
def digitsToNat : List Char → Option Nat
  | [] => none
  | c :: cs => digitsToNatAux (c :: cs) 0

/-- The sign-and-digits grammar of `strconv.ParseInt`, before its range
check: an optional sign followed by at least one decimal digit. -/
def goAtoiSigned : List Char → Option Int
  | [] => none
  | c :: rest =>
    if c = '+' then (digitsToNat rest).map Int.ofNat
    else if c = '-' then (digitsToNat rest).map (fun n => -Int.ofNat n)
    else (digitsToNat (c :: rest)).map Int.ofNat

/-- Go `strconv.Atoi` (equivalently `strconv.ParseInt(s, 10, 64)` here),
rejecting values outside the 64-bit signed range. -/
def goAtoi (s : List Char) : Option Int :=
  match goAtoiSigned s with
  | some v => if v < -(2 ^ 63) ∨ 2 ^ 63 - 1 < v then none else some v
  | none => none

/-- Big-endian digit characters of `n`, empty for 0; the fuel argument
only bounds the recursion depth. -/
def natToCharsAux : Nat → Nat → List Char
  | 0, _ => []
  | fuel + 1, n =>
    if n = 0 then [] else natToCharsAux fuel (n / 10) ++ [Nat.digitChar (n % 10)]

/-- Decimal rendering of a natural number, as produced by
`fmt.Sprintf` with the `%d` verb. -/
def natToChars (n : Nat) : List Char :=
  if n = 0 then ['0'] else natToCharsAux n n

/-- Decimal rendering of an integer (`%d`). -/
def intToChars (n : Int) : List Char :=
  if n < 0 then '-' :: natToChars n.natAbs else natToChars n.natAbs

/-! ## Data model

Rows of the `tags`, `messages` and `message_tags` tables, and the
in-memory database state the handlers operate on. -/

/-- A row of the `tags` table (`Tag` struct in `tags` / `database.go`). -/
structure TagRow where
  id : Int
  userId : Int
  name : List Char
  color : Option (List Char)
deriving DecidableEq, Repr

/-- A row of the `messages` table (the columns the tag flow touches). -/
structure MsgRow where
  id : Int
  userId : Int
  telegramMessageId : Int
deriving DecidableEq, Repr

/-- Database state: the three tables the tag flow reads and writes.
`messageTags` holds `(message_id, tag_id)` pairs. -/
structure DB where
  messages : List MsgRow
  tags : List TagRow
  messageTags : List (Int × Int)
deriving DecidableEq, Repr

/-- Query `SELECT id FROM messages WHERE user_id = $1 AND telegram_message_id = $2`
(`getMessageByTelegramID`); `none` is `sql.ErrNoRows`. -/
def getMessageByTelegramID (db : DB) (userId telegramMessageId : Int) : Option Int :=
  (db.messages.find? fun r =>
    r.userId == userId && r.telegramMessageId == telegramMessageId).map (·.id)

/-- Lexicographic comparison of names by code point, modelling the
`ORDER BY name` collation. -/
def strLe : List Char → List Char → Bool
  | [], _ => true
  | _ :: _, [] => false
  | a :: as, b :: bs =>
    if a.toNat < b.toNat then true
    else if b.toNat < a.toNat then false
    else strLe as bs

/-- Query `SELECT id, name, color FROM tags WHERE user_id = $1 ORDER BY name`
(`getUserTags`): the sender's tags sorted by name ascending. -/
def getUserTags (db : DB) (userId : Int) : List TagRow :=
  List.insertionSort (fun a b => strLe a.name b.name)
    (db.tags.filter fun t => t.userId == userId)

/-- A fresh tag id for an insert (`BIGSERIAL` sequence). -/
def freshTagId (db : DB) : Int :=
  (db.tags.map (·.id)).foldr max 0 + 1

/-- Model of `getOrCreateTag`: look the tag up by `(user_id, name)`; when absent,
insert a new row and return its id.  (The failure behaviour of the
insert itself is studied separately in `getOrCreateTagFlow`.) -/
def getOrCreateTag (db : DB) (userId : Int) (tagName : List Char) : DB × Int :=
  match db.tags.find? (fun t => t.userId == userId && t.name == tagName) with
  | some t => (db, t.id)
  | none =>
    let newId := freshTagId db
    ({ db with tags := db.tags ++ [⟨newId, userId, tagName, none⟩] }, newId)

/-- Model of `tagMessage`: `INSERT INTO message_tags ... ON CONFLICT (message_id,
tag_id) DO NOTHING` — idempotent link insert. -/
def tagMessage (db : DB) (messageId tagId : Int) : DB :=
  if (messageId, tagId) ∈ db.messageTags then db
  else { db with messageTags := db.messageTags ++ [(messageId, tagId)] }

/-- Query `SELECT name FROM tags WHERE id = $1 AND user_id = $2` — the
owner-scoped tag-name lookup in `handleTagCallback`. -/
def tagNameScoped (db : DB) (tagId userId : Int) : Option (List Char) :=
  (db.tags.find? fun t => t.id == tagId && t.userId == userId).map (·.name)

/-! ## Outbound effects and incoming updates -/

/-- One outbound effect towards the Telegram client: a plain message, a
message with a `ForceReply` markup, or an edit of an earlier message. -/
inductive Out where
  | sendMsg : Int → List Char → Out
  | sendForceReplyMsg : Int → List Char → Out
  | editMsg : Int → Int → List Char → Out
deriving DecidableEq, Repr

/-- The parts of an incoming message the tag flow reads:
sender, chat, its own id, its text, and the text of the message it
replies to (when it is a reply). -/
structure IncomingMsg where
  fromId : Int
  chatId : Int
  messageId : Int
  text : List Char
  replyToText : Option (List Char)
deriving DecidableEq, Repr

/-- The parts of a callback query the handlers read. -/
structure CallbackQuery where
  fromId : Int
  data : List Char
  chatId : Int
  messageId : Int
deriving DecidableEq, Repr

/-- Apostrophe character (U+0027), used inside several bot texts. -/
def apos : Char := Char.ofNat 39

def errNotReplyText : List Char :=
  ("This doesn").toList ++ [apos] ++ ("t appear to be a reply.").toList

def errNoOriginalText : List Char :=
  ("Could not find the original message to tag.").toList

def errEnterTagNameText : List Char :=
  ("Please enter a tag name.").toList

def errInvalidTagNumberText : List Char :=
  ("Invalid tag number. Please try again.").toList

def errCouldNotFindTagText : List Char :=
  ("Could not find the tag.").toList

/-- Text `✅ Message tagged with '<name>'`. -/
def confirmTaggedText (name : List Char) : List Char :=
  ("✅ Message tagged with ").toList ++ [apos] ++ name ++ [apos]

/-- Text `✅ Tagged with '<name>'` (edit of the button prompt). -/
def editTaggedText (name : List Char) : List Char :=
  ("✅ Tagged with ").toList ++ [apos] ++ name ++ [apos]

def editWaitingText : List Char :=
  ("Please reply with your new tag name...").toList

/-! ## Prompt encoding (`ConversationCodec`) -/

/-- The literal `[MSG_ID:` marker. -/
def msgIdMarker : List Char := ['[', 'M', 'S', 'G', '_', 'I', 'D', ':']

/-- The trailing `[MSG_ID:<id>]` marker appended to forced-reply prompts. -/
def markerSuffix (msgId : Int) : List Char :=
  msgIdMarker ++ intToChars msgId ++ [']']

/-- One inline-keyboard button: visible label plus callback data. -/
structure InlineButton where
  label : List Char
  callbackData : List Char
deriving DecidableEq, Repr

/-- The `➕ Create New Tag` button with data `new_tag:<msgId>`. -/
def newTagButton (msgId : Int) : InlineButton :=
  ⟨("➕ Create New Tag").toList, ("new_tag:").toList ++ intToChars msgId⟩

/-- A tag button with data `tag:<tagId>:<msgId>`. -/
def tagButton (t : TagRow) (msgId : Int) : InlineButton :=
  ⟨t.name, ("tag:").toList ++ intToChars t.id ++ [':'] ++ intToChars msgId⟩

/-- The button rows of `showTagSelectionWithButtons`: the loop packs two
tag buttons per row (`i += 2`). -/
def tagButtonRows (msgId : Int) : List TagRow → List (List InlineButton)
  | [] => []
  | [t] => [[tagButton t msgId]]
  | t₁ :: t₂ :: rest =>
    [tagButton t₁ msgId, tagButton t₂ msgId] :: tagButtonRows msgId rest

/-- A rendered tag picker: an inline-keyboard prompt, or a plain-text
prompt with its `ForceReply` flag. -/
inductive TagPrompt where
  | buttons : List Char → List (List InlineButton) → TagPrompt
  | textList : List Char → Bool → TagPrompt
deriving DecidableEq, Repr

def TagPrompt.isButtons : TagPrompt → Bool
  | .buttons _ _ => true
  | .textList _ _ => false

def buttonsPromptEmptyText : List Char :=
  ("You don").toList ++ [apos] ++
    ("t have any tags yet. Click the button below to create your first tag:").toList

def buttonsPromptText : List Char :=
  ("Choose a tag or create a new one:").toList

/-- Model of `showTagSelectionWithButtons`: button keyboard (no `[MSG_ID:]`
marker in its text). -/
def showTagSelectionWithButtons (tags : List TagRow) (msgId : Int) : TagPrompt :=
  if tags = [] then
    .buttons buttonsPromptEmptyText [[newTagButton msgId]]
  else
    .buttons buttonsPromptText (tagButtonRows msgId tags ++ [[newTagButton msgId]])

/-- Header `You have many tags (<n>). Choose by typing its name or
number, or create a new one:\n\n`. -/
def textPromptHeader (count : Nat) : List Char :=
  ("You have many tags (").toList ++ natToChars count ++
    ("). Choose by typing its name or number, or create a new one:\n\n").toList

/-- The numbered lines `<i>. <name>\n`, numbering from `i`. -/
def numberedLinesFrom (i : Nat) : List TagRow → List Char
  | [] => []
  | t :: ts => natToChars i ++ (". ").toList ++ t.name ++ ['\n'] ++ numberedLinesFrom (i + 1) ts

/-- Footer `\nType a tag name/number or create a new tag.\n\n`. -/
def textPromptFooter : List Char :=
  ("\nType a tag name/number or create a new tag.\n\n").toList

/-- Everything of the text-mode prompt before the `[MSG_ID:` marker. -/
def textPromptBody (tags : List TagRow) : List Char :=
  textPromptHeader tags.length ++ numberedLinesFrom 1 tags ++ textPromptFooter

/-- The full text of the text-mode prompt, marker included. -/
def textPromptText (tags : List TagRow) (msgId : Int) : List Char :=
  textPromptBody tags ++ msgIdMarker ++ intToChars msgId ++ [']']

/-- Model of `showTagSelectionWithText`: numbered list sent with
`ForceReply{ForceReply: true}` and the trailing `[MSG_ID:<id>]` marker. -/
def showTagSelectionWithText (tags : List TagRow) (msgId : Int) : TagPrompt :=
  .textList (textPromptText tags msgId) true

/-- Model of `showTagSelection`: buttons for at most 20 tags, text beyond. -/
def showTagSelection (db : DB) (m : IncomingMsg) : TagPrompt :=
  let tags := getUserTags db m.fromId
  if tags.length ≤ 20 then showTagSelectionWithButtons tags m.messageId
  else showTagSelectionWithText tags m.messageId

/-- The prompt of `handleNewTagCallback`, also carrying the marker. -/
def newTagPromptText (msgId : Int) : List Char :=
  ("Please reply with the name for your new tag:\n\n").toList ++
    msgIdMarker ++ intToChars msgId ++ [']']

/-! ## Prompt decoding -/

/-- The marker decoding of `handleTagSelection` (lines 299–321 of
`database.go`): substring search for `[MSG_ID:`, then for the next `]`,
then `strconv.Atoi` on the enclosed slice.  `none` stands for the three
early `return`s after `sendErrorMessage`.  (The Go byte slice
`[msgIDStart+8 : msgIDStart+msgIDEnd]` is in bounds whenever taken: the
eight characters after `msgIDStart` are the marker itself, none of which
is `]`, so `msgIDEnd ≥ 8` whenever it is not `-1`.) -/
def parseMsgIdFromText (botMessageText : List Char) : Option Int :=
  let msgIDStart := goIndex botMessageText msgIdMarker
  if msgIDStart = -1 then none
  else
    let s := msgIDStart.toNat
    let msgIDEnd := goIndex (botMessageText.drop s) [']']
    if msgIDEnd = -1 then none
    else
      let e := msgIDEnd.toNat
      goAtoi ((botMessageText.drop (s + 8)).take (e - 8))

/-- The callback-data decoding of `handleTagCallback`: exactly three
colon-separated fields whose second and third parse as integers. -/
def tagCallbackDecode (data : List Char) : Option (Int × Int) :=
  match goSplit ':' data with
  | [_, p₁, p₂] =>
    match goAtoi p₁, goAtoi p₂ with
    | some tagId, some msgId => some (tagId, msgId)
    | _, _ => none
  | _ => none

/-- The callback-data decoding of `handleNewTagCallback`: exactly two
colon-separated fields whose second parses as an integer. -/
def newTagCallbackDecode (data : List Char) : Option Int :=
  match goSplit ':' data with
  | [_, p₁] => goAtoi p₁
  | _ => none

/-! ## Handlers (`TagSelectionStateMachine`) -/

/-- The tail of `handleTagSelection` shared by the name and number
branches: get-or-create the tag, link it, confirm. -/
def commitTag (db : DB) (m : IncomingMsg) (dbMessageID : Int) (tagName : List Char) :
    DB × List Out :=
  let r := getOrCreateTag db m.fromId tagName
  let db₂ := tagMessage r.1 dbMessageID r.2
  (db₂, [.sendMsg m.chatId (confirmTaggedText tagName)])

/-- Model of `handleTagSelection`: the reply path.  Each `sendErrorMessage` +
`return` of the Go code becomes a `(db, [single error send])` result. -/
def handleTagSelection (db : DB) (m : IncomingMsg) : DB × List Out :=
  match m.replyToText with
  | none => (db, [.sendMsg m.chatId errNotReplyText])
  | some botMessageText =>
    match parseMsgIdFromText botMessageText with
    | none => (db, [.sendMsg m.chatId errNoOriginalText])
    | some originalMessageID =>
      match getMessageByTelegramID db m.fromId originalMessageID with
      | none => (db, [.sendMsg m.chatId errNoOriginalText])
      | some dbMessageID =>
        let tagName := trimSpace m.text
        if tagName = [] then (db, [.sendMsg m.chatId errEnterTagNameText])
        else
          match goAtoi tagName with
          | some num =>
            let tags := getUserTags db m.fromId
            if hn : num < 1 ∨ (tags.length : Int) < num then
              (db, [.sendMsg m.chatId errInvalidTagNumberText])
            else
              commitTag db m dbMessageID
                (tags.get ⟨(num - 1).toNat, by omega⟩).name
          | none => commitTag db m dbMessageID tagName

/-- The body of `handleTagCallback` after its callback data has been
decoded (lines 397–435): resolve the message, fetch the tag name scoped
by `(tag_id, user_id)`, link, confirm and edit the prompt. -/
def tagCallbackCore (db : DB) (cb : CallbackQuery) (tagID originalMessageID : Int) :
    DB × List Out :=
  match getMessageByTelegramID db cb.fromId originalMessageID with
  | none => (db, [.sendMsg cb.chatId errNoOriginalText])
  | some dbMessageID =>
    match tagNameScoped db tagID cb.fromId with
    | none => (db, [.sendMsg cb.chatId errCouldNotFindTagText])
    | some tagName =>
      let db₂ := tagMessage db dbMessageID tagID
      (db₂, [.sendMsg cb.chatId (confirmTaggedText tagName),
             .editMsg cb.chatId cb.messageId (editTaggedText tagName)])

/-- Model of `handleTagCallback`: the `tag:<tagId>:<msgId>` button path.  The
three malformed-data `return`s only log, producing no outbound effect. -/
def handleTagCallback (db : DB) (cb : CallbackQuery) : DB × List Out :=
  match goSplit ':' cb.data with
  | [_, p₁, p₂] =>
    match goAtoi p₁ with
    | none => (db, [])
    | some tagID =>
      match goAtoi p₂ with
      | none => (db, [])
      | some originalMessageID => tagCallbackCore db cb tagID originalMessageID
  | _ => (db, [])

/-- Model of `handleNewTagCallback`: the `new_tag:<msgId>` button path. -/
def handleNewTagCallback (db : DB) (cb : CallbackQuery) : DB × List Out :=
  match goSplit ':' cb.data with
  | [_, p₁] =>
    match goAtoi p₁ with
    | none => (db, [])
    | some originalMessageID =>
      (db, [.sendForceReplyMsg cb.chatId (newTagPromptText originalMessageID),
            .editMsg cb.chatId cb.messageId editWaitingText])
  | _ => (db, [])

/-- Number of user-visible messages (sends, with or without markup;
edits modify an existing message). -/
def isUserSend : Out → Bool
  | .sendMsg _ _ => true
  | .sendForceReplyMsg _ _ => true
  | .editMsg _ _ _ => false

def sendCount (l : List Out) : Nat := (l.filter isUserSend).length

/-! ## Message classification (`message.go`) -/

/-- The `MessageType` enumeration. -/
inductive MessageType where
  | text | photo | video | document | audio | voice | videoNote | sticker
deriving DecidableEq, Repr

/-- The fields of a Telegram message that `getMessageType` probes.
`photo` is a slice in Go, so `nil` versus present is an `Option` of a
list; the remaining media fields are pointers, their payloads unused by
classification. -/
structure TgMessage where
  text : List Char
  caption : List Char
  photo : Option (List Unit)
  video : Option Unit
  document : Option Unit
  audio : Option Unit
  voice : Option Unit
  videoNote : Option Unit
  sticker : Option Unit
deriving DecidableEq, Repr

/-- Model of `getMessageType`: first non-nil media field wins, in the order
photo, video, document, audio, voice, video_note, sticker; otherwise
text. -/
def getMessageType (m : TgMessage) : MessageType :=
  if m.photo.isSome then .photo
  else if m.video.isSome then .video
  else if m.document.isSome then .document
  else if m.audio.isSome then .audio
  else if m.voice.isSome then .voice
  else if m.videoNote.isSome then .videoNote
  else if m.sticker.isSome then .sticker
  else .text

/-! ## Preview truncation (`truncateText`, `saveMessage`)

Go's `len` and slicing act on bytes, so this part of the model uses
UTF-8 byte sequences (`List Nat`). -/

/-- The `...` suffix appended to truncated previews, as bytes. -/
def ellipsisBytes : List Nat := [46, 46, 46]

/-- Model of `truncateText`: keep the text when its byte length is within
`maxLength`, otherwise keep the first `maxLength` bytes and append
`...`.  (A negative `maxLength` panics in Go and is never passed;
`saveMessage` always passes 150.) -/
def truncateText (text : List Nat) (maxLength : Nat) : List Nat :=
  if text.length ≤ maxLength then text
  else text.take maxLength ++ ellipsisBytes

/-- The preview `saveMessage` stores for a text or caption field:
absent (`NULL`) when the field is empty, otherwise the field truncated
to 150 bytes. -/
def savePreview (field : List Nat) : Option (List Nat) :=
  if field = [] then none else some (truncateText field 150)

/-- Modelled from the SPEC's words, for comparison only: truncation at
150 *characters* with the marker appended when longer.  The input is
the same string presented as its list of UTF-8 character encodings. -/
def truncateTextSpecChars (chars : List (List Nat)) : List Nat :=
  if chars.length ≤ 150 then chars.flatten
  else (chars.take 150).flatten ++ ellipsisBytes

/-! ## `getOrCreateTag` control flow under insert failure

`getOrCreateTag` runs two statements in sequence: the `(user_id, name)`
lookup, then — only when the lookup reports `sql.ErrNoRows` — the
`INSERT ... RETURNING id`.  To study its error handling the two
statement outcomes are parameters; in particular a concurrent
invocation may insert the same `(user_id, name)` between the two
statements, making the insert fail with a uniqueness-constraint
violation. -/

/-- Statement-level failures relevant to `getOrCreateTag`. -/
inductive DbErr where
  | noRows
  | uniqueViolation
  | other
deriving DecidableEq, Repr

/-- The control flow of `getOrCreateTag`:
`err := lookup; if err == sql.ErrNoRows { err = insert }; return tagID, err`. -/
def getOrCreateTagFlow (selectResult insertResult : Except DbErr Int) : Except DbErr Int :=
  match selectResult with
  | .ok tagID => .ok tagID
  | .error .noRows => insertResult
  | .error e => .error e

/-! ## Concrete fixtures

Small database states and updates used to instantiate the theorems
below on concrete inputs. -/

def dbEmpty : DB := ⟨[], [], []⟩

/-- A user (id 10) with the single tag `a`. -/
def dbOneTag : DB := ⟨[], [⟨1, 10, ("a").toList, none⟩], []⟩

/-- A non-reply message from that user. -/
def mPlain : IncomingMsg := ⟨10, 5, 7, ("x").toList, none⟩

/-- A reply quoting the button-mode prompt (which has no marker). -/
def mReplyToButtons : IncomingMsg :=
  ⟨10, 5, 7, ("mytag").toList, some buttonsPromptText⟩

/-- User 12 stores message 777 (row 50) and owns tags `c`, `a`, `b`
(in that storage order; ids 3, 1, 2). -/
def dbAbc : DB :=
  ⟨[⟨50, 12, 777⟩],
   [⟨3, 12, ("c").toList, none⟩, ⟨1, 12, ("a").toList, none⟩,
    ⟨2, 12, ("b").toList, none⟩], []⟩

/-- The text-mode prompt the user replies to for message 777. -/
def replyPrompt777 : List Char := ("pick a tag\n\n[MSG_ID:777]").toList

/-- Reply `2` to that prompt. -/
def mReplyTwo : IncomingMsg := ⟨12, 1, 900, ("2").toList, some replyPrompt777⟩

/-- Reply `7` to that prompt (out of range for three tags). -/
def mReplySeven : IncomingMsg := ⟨12, 1, 901, ("7").toList, some replyPrompt777⟩

/-- User 12 stores message 100 (row 5); tag 1 belongs to user 99. -/
def dbForeignTag : DB := ⟨[⟨5, 12, 100⟩], [⟨1, 99, ("x").toList, none⟩], []⟩

/-- User 12 presses the button for the foreign tag 1 on message 100. -/
def cbForeignTag : CallbackQuery := ⟨12, ("tag:1:100").toList, 7, 3⟩

/-- Callback data with four colon-separated fields. -/
def cbArityFour : CallbackQuery := ⟨10, ("tag:1:2:3").toList, 5, 6⟩

/-- Callback data with two fields where `tag:` expects three. -/
def cbArityTwo : CallbackQuery := ⟨10, ("tag:9").toList, 5, 6⟩

/-- Callback data with a non-numeric tag id. -/
def cbBadTagId : CallbackQuery := ⟨12, ("tag:abc:123").toList, 9, 4⟩

/-- A well-formed `tag:` press by user 12 for tag 2 on message 777. -/
def cbGoodTag : CallbackQuery := ⟨12, ("tag:2:777").toList, 9, 4⟩

/-- A well-formed `new_tag:` press. -/
def cbGoodNewTag : CallbackQuery := ⟨12, ("new_tag:8").toList, 9, 4⟩

/-- Twenty-one tags `t0` … `t20` for user 10, forcing text mode. -/
def tags21 : List TagRow :=
  (List.range 21).map fun i => ⟨Int.ofNat i + 1, 10, 't' :: natToChars i, none⟩

def dbManyTags : DB := ⟨[], tags21, []⟩

/-- User 12 owns one tag literally named `5` while message 777 is
stored; the reply `5` is a number, not that name. -/
def dbTagNamedFive : DB :=
  ⟨[⟨50, 12, 777⟩], [⟨1, 12, ("5").toList, none⟩], []⟩

def mReplyFive : IncomingMsg := ⟨12, 1, 902, ("5").toList, some replyPrompt777⟩

/-- A message carrying every media field plus text and caption. -/
def msgAllMedia : TgMessage :=
  ⟨("hello").toList, ("cap").toList, some [()], some (), some (), some (),
   some (), some (), some ()⟩

/-- A sticker-only message. -/
def msgSticker : TgMessage := ⟨[], [], none, none, none, none, none, none, some ()⟩

/-- A plain text message. -/
def msgPlainText : TgMessage := ⟨("hi").toList, [], none, none, none, none, none, none, none⟩

/-- Three tags `a`, `b`, `c` (ids 1, 2, 3) used for the marker
round-trip witness. -/
def tagsAbc : List TagRow :=
  [⟨1, 10, ("a").toList, none⟩, ⟨2, 10, ("b").toList, none⟩,
   ⟨3, 10, ("c").toList, none⟩]

/-! ## Lemmas: decimal round trip -/

theorem charToDigit_digitChar (d : Nat) (hd : d < 10) :
    charToDigit? (Nat.digitChar d) = some d := by
  interval_cases d <;> decide

theorem digitsToNatAux_map_digitChar (l : List Nat) (h : ∀ d ∈ l, d < 10) (acc : Nat) :
    digitsToNatAux (l.map Nat.digitChar) acc =
      some (l.foldl (fun a d => a * 10 + d) acc) := by
  induction l generalizing acc with
  | nil => rfl
  | cons d rest ih =>
    have hd : d < 10 := h d (List.mem_cons_self d rest)
    simp only [List.map_cons, digitsToNatAux, charToDigit_digitChar d hd, List.foldl_cons]
    exact ih (fun x hx => h x (List.mem_cons_of_mem _ hx)) _

theorem foldl_reverse_eq_ofDigits (l : List Nat) (acc : Nat) :
    l.reverse.foldl (fun a d => a * 10 + d) acc =
      acc * 10 ^ l.length + Nat.ofDigits 10 l := by
  induction l generalizing acc with
  | nil => simp
  | cons d rest ih =>
    simp only [List.reverse_cons, List.foldl_append, List.foldl_cons, List.foldl_nil,
      Nat.ofDigits_cons, List.length_cons, ih, pow_succ]
    ring

theorem natToCharsAux_eq (fuel n : Nat) (h : n ≤ fuel) :
    natToCharsAux fuel n = (Nat.digits 10 n).reverse.map Nat.digitChar := by
  induction fuel generalizing n with
  | zero =>
    have : n = 0 := by omega
    subst this
    simp [natToCharsAux]
  | succ fuel ih =>
    by_cases h0 : n = 0
    · subst h0
      simp [natToCharsAux]
    · rw [natToCharsAux, if_neg h0,
        ih (n / 10)
          (by have := Nat.div_lt_self (by omega : 0 < n) (by norm_num : (1 : Nat) < 10)
              omega),
        Nat.digits_def' (by norm_num : 1 < 10) (by omega : 0 < n),
        List.reverse_cons, List.map_append]
      rfl

/-- The function `natToChars` agrees with the big-endian digit characters of
`Nat.digits`. -/
theorem natToChars_eq_digits (n : Nat) :
    natToChars n = if n = 0 then ['0']
      else (Nat.digits 10 n).reverse.map Nat.digitChar := by
  unfold natToChars
  by_cases h0 : n = 0
  · rw [if_pos h0, if_pos h0]
  · rw [if_neg h0, if_neg h0, natToCharsAux_eq n n le_rfl]

theorem digitsToNat_natToChars (n : Nat) : digitsToNat (natToChars n) = some n := by
  rw [natToChars_eq_digits]
  by_cases h0 : n = 0
  · subst h0; rfl
  · have hne : Nat.digits 10 n ≠ [] := Nat.digits_ne_nil_iff_ne_zero.mpr h0
    have hlt : ∀ d ∈ (Nat.digits 10 n).reverse, d < 10 := fun d hd =>
      Nat.digits_lt_base (by norm_num) (List.mem_reverse.mp hd)
    have hform := digitsToNatAux_map_digitChar ((Nat.digits 10 n).reverse) hlt 0
    rw [foldl_reverse_eq_ofDigits] at hform
    · rw [if_neg h0]
      cases hrev : ((Nat.digits 10 n).reverse.map Nat.digitChar) with
      | nil =>
        exfalso
        apply hne
        have := congrArg List.length hrev
        simpa using this
      | cons c cs =>
        show digitsToNatAux (c :: cs) 0 = some n
        rw [← hrev, hform]
        simp [Nat.ofDigits_digits]

theorem natToChars_mem_digit (n : Nat) : ∀ c ∈ natToChars n, 48 ≤ c.toNat ∧ c.toNat ≤ 57 := by
  intro c hc
  rw [natToChars_eq_digits] at hc
  by_cases h0 : n = 0
  · rw [if_pos h0] at hc
    simp only [List.mem_singleton] at hc
    subst hc; decide
  · rw [if_neg h0] at hc
    obtain ⟨d, hd, rfl⟩ := List.mem_map.mp hc
    have hlt : d < 10 := Nat.digits_lt_base (by norm_num) (List.mem_reverse.mp hd)
    interval_cases d <;> decide

theorem natToChars_ne_nil (n : Nat) : natToChars n ≠ [] := by
  rw [natToChars_eq_digits]
  by_cases h0 : n = 0
  · simp [h0]
  · rw [if_neg h0]
    simp [Nat.digits_ne_nil_iff_ne_zero.mpr h0]

theorem intToChars_mem (n : Int) :
    ∀ c ∈ intToChars n, c.toNat = 45 ∨ (48 ≤ c.toNat ∧ c.toNat ≤ 57) := by
  intro c hc
  unfold intToChars at hc
  by_cases hneg : n < 0
  · rw [if_pos hneg] at hc
    rcases List.mem_cons.mp hc with h | h
    · subst h; left; rfl
    · exact Or.inr (natToChars_mem_digit _ c h)
  · rw [if_neg hneg] at hc
    exact Or.inr (natToChars_mem_digit _ c hc)

theorem goAtoiSigned_natToChars (m : Nat) :
    goAtoiSigned (natToChars m) = some (Int.ofNat m) := by
  cases hm : natToChars m with
  | nil => exact absurd hm (natToChars_ne_nil m)
  | cons c cs =>
    have hdig : 48 ≤ c.toNat ∧ c.toNat ≤ 57 :=
      natToChars_mem_digit m c (hm ▸ List.mem_cons_self c cs)
    have hplus : ¬ c = '+' := fun h => absurd hdig (by subst h; decide)
    have hminus : ¬ c = '-' := fun h => absurd hdig (by subst h; decide)
    have hparse : digitsToNat (c :: cs) = some m := hm ▸ digitsToNat_natToChars m
    rw [goAtoiSigned, if_neg hplus, if_neg hminus, hparse, Option.map_some']

theorem goAtoiSigned_intToChars (n : Int) :
    goAtoiSigned (intToChars n) = some n := by
  by_cases hneg : n < 0
  · unfold intToChars
    rw [if_pos hneg]
    have hparse : digitsToNat (natToChars n.natAbs) = some n.natAbs :=
      digitsToNat_natToChars _
    have habs : -Int.ofNat n.natAbs = n := by
      simp only [Int.ofNat_eq_coe]
      omega
    rw [goAtoiSigned, if_neg (by decide : ¬ ('-' : Char) = '+'),
      if_pos (rfl : ('-' : Char) = '-'), hparse, Option.map_some', habs]
  · unfold intToChars
    rw [if_neg hneg, goAtoiSigned_natToChars]
    congr 1
    simp only [Int.ofNat_eq_coe]
    exact Int.natAbs_of_nonneg (by omega)

theorem goAtoi_intToChars (n : Int) (hlo : -(2 ^ 63) ≤ n) (hhi : n ≤ 2 ^ 63 - 1) :
    goAtoi (intToChars n) = some n := by
  unfold goAtoi
  rw [goAtoiSigned_intToChars]
  exact if_neg (by omega)

/-! ## Lemmas: substring search (`goIndex`) -/

theorem isPrefixOf_iff {l₁ l₂ : List Char} : l₁.isPrefixOf l₂ = true ↔ l₁ <+: l₂ :=
  List.isPrefixOf_iff_prefix

theorem take_prefix_self (n : Nat) (l : List Char) : l.take n <+: l :=
  List.take_prefix n l

theorem indexAux_zero_of_isPrefixOf {pat s : List Char} (h : pat.isPrefixOf s = true) :
    indexAux pat s = some 0 := by
  cases s <;> simp [indexAux, h]

theorem indexAux_cons_of_not_isPrefixOf {pat : List Char} {c : Char} {rest : List Char}
    (h : ¬ pat.isPrefixOf (c :: rest) = true) :
    indexAux pat (c :: rest) = (indexAux pat rest).map (· + 1) := by
  simp [indexAux, h]

theorem indexAux_none {pat s : List Char} (h : indexAux pat s = none) :
    ∀ m, ¬ pat.isPrefixOf (s.drop m) = true := by
  induction s with
  | nil =>
    intro m
    simp only [List.drop_nil]
    intro hp
    rw [indexAux_zero_of_isPrefixOf hp] at h
    exact Option.noConfusion h
  | cons c rest ih =>
    intro m
    by_cases hp : pat.isPrefixOf (c :: rest) = true
    · rw [indexAux_zero_of_isPrefixOf hp] at h
      exact absurd h (Option.noConfusion ·)
    · rw [indexAux_cons_of_not_isPrefixOf hp] at h
      have hr : indexAux pat rest = none := by
        cases hx : indexAux pat rest with
        | none => rfl
        | some k => rw [hx] at h; exact Option.noConfusion h
      cases m with
      | zero => simpa using hp
      | succ m => simpa using ih hr m

theorem indexAux_append {pat : List Char} (body rest : List Char)
    (hb : ∀ m, m < body.length → ¬ pat.isPrefixOf ((body ++ rest).drop m) = true)
    (hp : pat.isPrefixOf rest = true) :
    indexAux pat (body ++ rest) = some body.length := by
  induction body with
  | nil => simpa using indexAux_zero_of_isPrefixOf hp
  | cons c bs ih =>
    have h0 : ¬ pat.isPrefixOf (c :: (bs ++ rest)) = true := by
      have := hb 0 (by simp)
      simpa using this
    rw [List.cons_append, indexAux_cons_of_not_isPrefixOf h0,
      ih (fun m hm => by simpa using hb (m + 1) (by simpa using hm))]
    rfl

theorem not_prefixOf_of_getElem? {pat l : List Char} (i : Nat) (hi : i < pat.length)
    (hne : l[i]? ≠ pat[i]?) : ¬ pat.isPrefixOf l = true := by
  intro h
  rw [isPrefixOf_iff] at h
  obtain ⟨t, rfl⟩ := h
  exact hne (by rw [List.getElem?_append_left hi])

theorem prefixOf_self_append (pat t : List Char) : pat.isPrefixOf (pat ++ t) = true := by
  rw [isPrefixOf_iff]
  exact List.prefix_append pat t

theorem goIndex_eq_neg_one {s pat : List Char} (h : goIndex s pat = -1) :
    indexAux pat s = none := by
  unfold goIndex at h
  cases hx : indexAux pat s with
  | none => rfl
  | some k =>
    rw [hx] at h
    exact absurd h (by simp only [Int.ofNat_eq_coe]; omega)

/-- The first occurrence of `[MSG_ID:` in `body ++ [MSG_ID:...` is at
`body.length` when `body` itself contains no occurrence: an occurrence
cannot straddle the boundary, because at the offset where the appended
part starts the text reads `[`, while no character of `[MSG_ID:` after
its first is `[`. -/
theorem goIndex_body_marker (body tail : List Char)
    (hbody : goIndex body msgIdMarker = -1) :
    goIndex (body ++ (msgIdMarker ++ tail)) msgIdMarker = (body.length : Int) := by
  have hball := indexAux_none (goIndex_eq_neg_one hbody)
  have hb : ∀ m, m < body.length →
      ¬ msgIdMarker.isPrefixOf ((body ++ (msgIdMarker ++ tail)).drop m) = true := by
    intro m hm hpre
    have hdrop : (body ++ (msgIdMarker ++ tail)).drop m =
        body.drop m ++ (msgIdMarker ++ tail) := by
      rw [List.drop_append_eq_append_drop, Nat.sub_eq_zero_of_le (le_of_lt hm),
        List.drop_zero]
    rw [hdrop] at hpre
    have hlen : (body.drop m).length = body.length - m := List.length_drop m body
    by_cases hk8 : 8 ≤ body.length - m
    · apply hball m
      rw [isPrefixOf_iff] at hpre ⊢
      have htake := List.prefix_iff_eq_take.mp hpre
      have hpatlen : msgIdMarker.length = 8 := rfl
      rw [hpatlen, List.take_append_eq_append_take] at htake
      rw [htake]
      have h0 : 8 - (body.drop m).length = 0 := by omega
      rw [h0, List.take_zero, List.append_nil]
      exact take_prefix_self 8 (body.drop m)
    · rw [isPrefixOf_iff] at hpre
      obtain ⟨t₂, ht₂⟩ := hpre
      have hL : (body.drop m ++ (msgIdMarker ++ tail))[body.length - m]? = some '[' := by
        rw [List.getElem?_append_right (by omega), hlen, Nat.sub_self]
        rfl
      rw [← ht₂] at hL
      have hR : (msgIdMarker ++ t₂)[body.length - m]? =
          msgIdMarker[body.length - m]? :=
        List.getElem?_append_left
          (by rw [show msgIdMarker.length = 8 from rfl]; omega)
      rw [hR] at hL
      have hk1 : 1 ≤ body.length - m := by omega
      have hk7 : body.length - m ≤ 7 := by omega
      set k := body.length - m with hk
      interval_cases k <;> exact absurd hL (by decide)
  have := indexAux_append body (msgIdMarker ++ tail) hb
    (prefixOf_self_append msgIdMarker tail)
  unfold goIndex
  rw [this]

/-- Searching for a character that does not occur in `body` finds the
copy appended right after it. -/
theorem goIndex_after_clean (body : List Char) (x : Char)
    (hb : ∀ c ∈ body, ¬ c = x) :
    goIndex (body ++ [x]) [x] = (body.length : Int) := by
  have hbm : ∀ m, m < body.length →
      ¬ [x].isPrefixOf ((body ++ [x]).drop m) = true := by
    intro m hm
    apply not_prefixOf_of_getElem? 0 (by simp)
    rw [List.getElem?_drop, Nat.add_zero, List.getElem?_append_left hm,
      List.getElem?_eq_getElem hm]
    have hne := hb _ (List.getElem_mem hm)
    simp [hne]
  have hp : [x].isPrefixOf [x] = true := by
    rw [isPrefixOf_iff]
  have := indexAux_append body [x] hbm hp
  unfold goIndex
  rw [this]

/-- Round trip of the prompt marker: appending `[MSG_ID:<n>]` to a body
that contains no `[MSG_ID:` of its own, and decoding as the reply
handler does, recovers `n`. -/
theorem parseMsgId_append (body : List Char) (n : Int)
    (hbody : goIndex body msgIdMarker = -1)
    (hlo : -(2 ^ 63) ≤ n) (hhi : n ≤ 2 ^ 63 - 1) :
    parseMsgIdFromText (body ++ (msgIdMarker ++ (intToChars n ++ [']']))) = some n := by
  have h1 := goIndex_body_marker body (intToChars n ++ [']']) hbody
  have hclean : ∀ c ∈ msgIdMarker ++ intToChars n, ¬ c = ']' := by
    intro c hc
    rcases List.mem_append.mp hc with h | h
    · simp only [msgIdMarker, List.mem_cons, List.not_mem_nil, or_false] at h
      rcases h with rfl | rfl | rfl | rfl | rfl | rfl | rfl | rfl <;> decide
    · rcases intToChars_mem n c h with h45 | hd
      · intro hcx
        rw [hcx] at h45
        exact absurd h45 (by decide)
      · intro hcx
        rw [hcx] at hd
        exact absurd hd (by decide)
  have h2 : goIndex (msgIdMarker ++ (intToChars n ++ [']'])) [']'] =
      (((msgIdMarker ++ intToChars n).length : Nat) : Int) := by
    rw [← List.append_assoc]
    exact goIndex_after_clean (msgIdMarker ++ intToChars n) ']' hclean
  have hmlen : (msgIdMarker ++ intToChars n).length = 8 + (intToChars n).length := by
    simp only [List.length_append]
    rw [show msgIdMarker.length = 8 from rfl]
  simp only [parseMsgIdFromText, h1]
  rw [if_neg (by omega), Int.toNat_natCast, List.drop_left, h2,
    if_neg (by omega), Int.toNat_natCast, hmlen]
  have hdrop : (body ++ (msgIdMarker ++ (intToChars n ++ [']']))).drop
      (body.length + 8) = intToChars n ++ [']'] := by
    have hsplit : body ++ (msgIdMarker ++ (intToChars n ++ [']'])) =
        (body ++ msgIdMarker) ++ (intToChars n ++ [']']) := by
      simp [List.append_assoc]
    have hlen8 : body.length + 8 = (body ++ msgIdMarker).length := by
      simp [msgIdMarker]
    rw [hsplit, hlen8, List.drop_left]
  rw [hdrop, Nat.add_sub_cancel_left, List.take_left]
  exact goAtoi_intToChars n hlo hhi

/-! ## Lemmas: callback handler paths -/

theorem handleTagCallback_decode_none (db : DB) (cb : CallbackQuery)
    (h : tagCallbackDecode cb.data = none) :
    handleTagCallback db cb = (db, []) := by
  unfold handleTagCallback
  unfold tagCallbackDecode at h
  cases hs : goSplit ':' cb.data with
  | nil => rfl
  | cons p₀ ps =>
    cases ps with
    | nil => rfl
    | cons p₁ ps₂ =>
      cases ps₂ with
      | nil => rfl
      | cons p₂ ps₃ =>
        cases ps₃ with
        | nil =>
          rw [hs] at h
          cases ha : goAtoi p₁ with
          | none => simp [ha]
          | some tagID =>
            cases hb : goAtoi p₂ with
            | none => simp [ha, hb]
            | some mid =>
              simp only [ha, hb] at h
              exact absurd h (by simp)
        | cons p₃ ps₄ => rfl

theorem handleTagCallback_decode_some (db : DB) (cb : CallbackQuery)
    (tagID mid : Int) (h : tagCallbackDecode cb.data = some (tagID, mid)) :
    handleTagCallback db cb = tagCallbackCore db cb tagID mid := by
  unfold handleTagCallback
  unfold tagCallbackDecode at h
  cases hs : goSplit ':' cb.data with
  | nil => rw [hs] at h; exact absurd h (by simp)
  | cons p₀ ps =>
    cases ps with
    | nil => rw [hs] at h; exact absurd h (by simp)
    | cons p₁ ps₂ =>
      cases ps₂ with
      | nil => rw [hs] at h; exact absurd h (by simp)
      | cons p₂ ps₃ =>
        cases ps₃ with
        | nil =>
          rw [hs] at h
          cases ha : goAtoi p₁ with
          | none => simp only [ha] at h; exact absurd h (by simp)
          | some tagID₂ =>
            cases hb : goAtoi p₂ with
            | none => simp only [ha, hb] at h; exact absurd h (by simp)
            | some mid₂ =>
              simp only [ha, hb, Option.some_inj, Prod.mk.injEq] at h
              simp [ha, hb, h.1, h.2]
        | cons p₃ ps₄ => rw [hs] at h; exact absurd h (by simp)

theorem handleNewTagCallback_decode_none (db : DB) (cb : CallbackQuery)
    (h : newTagCallbackDecode cb.data = none) :
    handleNewTagCallback db cb = (db, []) := by
  unfold handleNewTagCallback
  unfold newTagCallbackDecode at h
  cases hs : goSplit ':' cb.data with
  | nil => rfl
  | cons p₀ ps =>
    cases ps with
    | nil => rfl
    | cons p₁ ps₂ =>
      cases ps₂ with
      | nil =>
        rw [hs] at h
        simp at h
        simp [h]
      | cons p₂ ps₃ => rfl

theorem handleNewTagCallback_decode_some (db : DB) (cb : CallbackQuery)
    (mid : Int) (h : newTagCallbackDecode cb.data = some mid) :
    handleNewTagCallback db cb =
      (db, [.sendForceReplyMsg cb.chatId (newTagPromptText mid),
            .editMsg cb.chatId cb.messageId editWaitingText]) := by
  unfold handleNewTagCallback
  unfold newTagCallbackDecode at h
  cases hs : goSplit ':' cb.data with
  | nil => rw [hs] at h; exact absurd h (by simp)
  | cons p₀ ps =>
    cases ps with
    | nil => rw [hs] at h; exact absurd h (by simp)
    | cons p₁ ps₂ =>
      cases ps₂ with
      | nil =>
        rw [hs] at h
        simp at h
        simp [h]
      | cons p₂ ps₃ => rw [hs] at h; exact absurd h (by simp)

/-! ## Lemmas: reply-path handler -/

theorem handleTagSelection_no_reply (db : DB) (m : IncomingMsg)
    (h : m.replyToText = none) :
    handleTagSelection db m = (db, [.sendMsg m.chatId errNotReplyText]) := by
  unfold handleTagSelection
  rw [h]

theorem handleTagSelection_parse_none (db : DB) (m : IncomingMsg) (r : List Char)
    (h : m.replyToText = some r) (hp : parseMsgIdFromText r = none) :
    handleTagSelection db m = (db, [.sendMsg m.chatId errNoOriginalText]) := by
  unfold handleTagSelection
  simp only [h, hp]

theorem handleTagSelection_resolve_none (db : DB) (m : IncomingMsg) (r : List Char)
    (mid : Int) (h : m.replyToText = some r) (hp : parseMsgIdFromText r = some mid)
    (hg : getMessageByTelegramID db m.fromId mid = none) :
    handleTagSelection db m = (db, [.sendMsg m.chatId errNoOriginalText]) := by
  unfold handleTagSelection
  simp only [h, hp, hg]

theorem goAtoi_nil : goAtoi ([] : List Char) = none := rfl

theorem trimSpace_ne_nil_of_goAtoi {s : List Char} {num : Int}
    (ha : goAtoi (trimSpace s) = some num) : trimSpace s ≠ [] := by
  intro h0
  rw [h0, goAtoi_nil] at ha
  exact Option.noConfusion ha

theorem handleTagSelection_numeric_oob (db : DB) (m : IncomingMsg) (r : List Char)
    (mid dbMid num : Int)
    (h : m.replyToText = some r) (hp : parseMsgIdFromText r = some mid)
    (hg : getMessageByTelegramID db m.fromId mid = some dbMid)
    (ha : goAtoi (trimSpace m.text) = some num)
    (hn : num < 1 ∨ ((getUserTags db m.fromId).length : Int) < num) :
    handleTagSelection db m = (db, [.sendMsg m.chatId errInvalidTagNumberText]) := by
  unfold handleTagSelection
  simp only [h, hp, hg, if_neg (trimSpace_ne_nil_of_goAtoi ha), ha]
  rw [dif_pos hn]

theorem handleTagSelection_numeric_ok (db : DB) (m : IncomingMsg) (r : List Char)
    (mid dbMid num : Int) (t : TagRow)
    (h : m.replyToText = some r) (hp : parseMsgIdFromText r = some mid)
    (hg : getMessageByTelegramID db m.fromId mid = some dbMid)
    (ha : goAtoi (trimSpace m.text) = some num)
    (hn1 : 1 ≤ num) (hn2 : num ≤ ((getUserTags db m.fromId).length : Int))
    (ht : (getUserTags db m.fromId)[(num - 1).toNat]? = some t) :
    handleTagSelection db m = commitTag db m dbMid t.name := by
  have hb : (num - 1).toNat < (getUserTags db m.fromId).length := by omega
  unfold handleTagSelection
  simp only [h, hp, hg, if_neg (trimSpace_ne_nil_of_goAtoi ha), ha]
  rw [dif_neg (by omega)]
  congr 1
  rw [List.getElem?_eq_getElem hb] at ht
  rw [List.get_eq_getElem]
  exact congrArg TagRow.name (Option.some_inj.mp ht)

theorem handleTagSelection_name (db : DB) (m : IncomingMsg) (r : List Char)
    (mid dbMid : Int)
    (h : m.replyToText = some r) (hp : parseMsgIdFromText r = some mid)
    (hg : getMessageByTelegramID db m.fromId mid = some dbMid)
    (hne : trimSpace m.text ≠ [])
    (ha : goAtoi (trimSpace m.text) = none) :
    handleTagSelection db m = commitTag db m dbMid (trimSpace m.text) := by
  unfold handleTagSelection
  simp only [h, hp, hg, if_neg hne, ha]

theorem handleTagSelection_sendCount (db : DB) (m : IncomingMsg) :
    sendCount (handleTagSelection db m).2 = 1 := by
  unfold handleTagSelection commitTag
  repeat' split
  all_goals (dsimp only; repeat' split)
  all_goals rfl

theorem tagCallbackCore_sendCount (db : DB) (cb : CallbackQuery) (a b : Int) :
    sendCount (tagCallbackCore db cb a b).2 = 1 := by
  unfold tagCallbackCore
  repeat' split
  all_goals rfl

/-! ## Lemmas: tag store -/

theorem tagMessage_tags (db : DB) (a b : Int) : (tagMessage db a b).tags = db.tags := by
  unfold tagMessage
  split <;> rfl

theorem tagMessage_messages (db : DB) (a b : Int) :
    (tagMessage db a b).messages = db.messages := by
  unfold tagMessage
  split <;> rfl

theorem mem_getUserTags {db : DB} {userId : Int} {t : TagRow}
    (h : t ∈ getUserTags db userId) : t ∈ db.tags ∧ t.userId = userId := by
  unfold getUserTags at h
  have hmem := (List.perm_insertionSort _ _).subset h
  have := List.mem_filter.mp hmem
  exact ⟨this.1, by simpa using this.2⟩

theorem getOrCreateTag_found (db : DB) (userId : Int) (name : List Char) (t₀ : TagRow)
    (h : db.tags.find? (fun t => t.userId == userId && t.name == name) = some t₀) :
    getOrCreateTag db userId name = (db, t₀.id) := by
  unfold getOrCreateTag
  rw [h]

theorem find?_user_name_exists (db : DB) (userId : Int) (t : TagRow)
    (ht : t ∈ db.tags) (hu : t.userId = userId) :
    ∃ t₀, db.tags.find? (fun x => x.userId == userId && x.name == t.name) = some t₀ ∧
      t₀ ∈ db.tags ∧ t₀.userId = userId ∧ t₀.name = t.name := by
  have hsome : (db.tags.find? fun x => x.userId == userId && x.name == t.name).isSome := by
    rw [List.find?_isSome]
    exact ⟨t, ht, by simp [hu]⟩
  obtain ⟨t₀, ht₀⟩ := Option.isSome_iff_exists.mp hsome
  have hp := List.find?_some ht₀
  simp only [Bool.and_eq_true, beq_iff_eq] at hp
  exact ⟨t₀, ht₀, List.mem_of_find?_eq_some ht₀, hp.1, hp.2⟩

/-- When some tag of `userId` has this name, the lookup side of
`getOrCreateTag` succeeds and no row is inserted. -/
theorem getOrCreateTag_fst (db : DB) (userId : Int) (t : TagRow)
    (ht : t ∈ db.tags) (hu : t.userId = userId) :
    (getOrCreateTag db userId t.name).1 = db := by
  obtain ⟨t₀, hf, _, _, _⟩ := find?_user_name_exists db userId t ht hu
  rw [getOrCreateTag_found db userId t.name t₀ hf]

/-- Under the `(user_id, name)` uniqueness invariant the row found is
the row itself. -/
theorem getOrCreateTag_unique (db : DB) (userId : Int) (t : TagRow)
    (ht : t ∈ db.tags) (hu : t.userId = userId)
    (huniq : (db.tags.map fun x => (x.userId, x.name)).Nodup) :
    getOrCreateTag db userId t.name = (db, t.id) := by
  obtain ⟨t₀, hf, hmem, hu₀, hn₀⟩ := find?_user_name_exists db userId t ht hu
  have heq : t₀ = t := by
    apply List.inj_on_of_nodup_map huniq hmem ht
    simp only [Prod.mk.injEq]
    exact ⟨hu₀.trans hu.symm, hn₀⟩
  rw [getOrCreateTag_found db userId t.name t₀ hf, heq]

theorem commitTag_existing (db : DB) (m : IncomingMsg) (dbMid : Int) (t : TagRow)
    (ht : t ∈ db.tags) (hu : t.userId = m.fromId)
    (huniq : (db.tags.map fun x => (x.userId, x.name)).Nodup) :
    commitTag db m dbMid t.name =
      (tagMessage db dbMid t.id, [.sendMsg m.chatId (confirmTaggedText t.name)]) := by
  unfold commitTag
  rw [getOrCreateTag_unique db m.fromId t ht hu huniq]

theorem commitTag_existing_tags (db : DB) (m : IncomingMsg) (dbMid : Int) (t : TagRow)
    (ht : t ∈ db.tags) (hu : t.userId = m.fromId) :
    (commitTag db m dbMid t.name).1.tags = db.tags := by
  unfold commitTag
  rw [tagMessage_tags, getOrCreateTag_fst db m.fromId t ht hu]

/-! ## Lemmas: keyboard structure -/

theorem tagButtonRows_flatten (msgId : Int) :
    ∀ tags : List TagRow, (tagButtonRows msgId tags).flatten =
      tags.map fun t => tagButton t msgId
  | [] => rfl
  | [t] => rfl
  | t₁ :: t₂ :: rest => by
    simp only [tagButtonRows, List.flatten_cons, tagButtonRows_flatten msgId rest,
      List.map_cons]
    rfl

theorem tagButtonRows_rowLen (msgId : Int) :
    ∀ tags : List TagRow, ∀ r ∈ tagButtonRows msgId tags,
      1 ≤ r.length ∧ r.length ≤ 2
  | [] => by simp [tagButtonRows]
  | [t] => by
    intro r hr
    simp only [tagButtonRows, List.mem_singleton] at hr
    subst hr
    exact ⟨by simp, by simp⟩
  | t₁ :: t₂ :: rest => by
    intro r hr
    rw [tagButtonRows] at hr
    rcases List.mem_cons.mp hr with rfl | h
    · exact ⟨by simp, by simp⟩
    · exact tagButtonRows_rowLen msgId rest r h

/-! ## Claim theorems -/

set_option maxRecDepth 8000 in
/-- C1 — counterexample.  The claim asserts that *every* tag-picker
prompt, whether rendered as buttons or as numbered text, carries a
trailing `[MSG_ID:n]` marker that decodes back to `n`.  For a user with
one tag the picker is rendered as buttons (1 ≤ 20) with prompt text
`Choose a tag or create a new one:`, which contains no marker at all,
and decoding it fails. -/
theorem c1_counterexample :
    showTagSelection dbOneTag mPlain =
      TagPrompt.buttons buttonsPromptText
        [[tagButton ⟨1, 10, ("a").toList, none⟩ 7], [newTagButton 7]] ∧
    parseMsgIdFromText buttonsPromptText = none := by
  constructor
  · decide
  · decide

/-- C1 (amended): only the numbered-text tag-picker prompt and the
new-tag forced-reply prompt carry a trailing `[MSG_ID:n]` marker (the
button-mode prompt carries none); for those prompts, provided the text
before the marker does not itself contain the substring `[MSG_ID:`
(for example through a tag name) and `n` fits in a 64-bit signed
integer, reply-path decoding — substring search for `[MSG_ID:`, then
the closing `]`, then decimal parse — recovers exactly `n`. -/
theorem c1_marker_roundtrip (tags : List TagRow) (n : Int)
    (hbody : goIndex (textPromptBody tags) msgIdMarker = -1)
    (hlo : -(2 ^ 63) ≤ n) (hhi : n ≤ 2 ^ 63 - 1) :
    textPromptText tags n =
      textPromptBody tags ++ (msgIdMarker ++ (intToChars n ++ [']'])) ∧
    parseMsgIdFromText (textPromptText tags n) = some n ∧
    parseMsgIdFromText (newTagPromptText n) = some n := by
  have hassoc : textPromptText tags n =
      textPromptBody tags ++ (msgIdMarker ++ (intToChars n ++ [']'])) := by
    unfold textPromptText
    simp [List.append_assoc]
  refine ⟨hassoc, ?_, ?_⟩
  · rw [hassoc]
    exact parseMsgId_append _ n hbody hlo hhi
  · have hb2 : goIndex (("Please reply with the name for your new tag:\n\n").toList)
        msgIdMarker = -1 := by decide
    have hx : newTagPromptText n =
        ("Please reply with the name for your new tag:\n\n").toList ++
          (msgIdMarker ++ (intToChars n ++ [']'])) := by
      unfold newTagPromptText
      simp [List.append_assoc]
    rw [hx]
    exact parseMsgId_append _ n hb2 hlo hhi

set_option maxRecDepth 8000 in
/-- C1 — witness: the text prompt for tags `a`, `b`, `c` and message id
42 decodes back to 42. -/
theorem c1_marker_roundtrip_witness :
    goIndex (textPromptBody tagsAbc) msgIdMarker = -1 ∧
    parseMsgIdFromText (textPromptText tagsAbc 42) = some 42 :=
  ⟨by decide,
   (c1_marker_roundtrip tagsAbc 42 (by decide) (by decide) (by decide)).2.1⟩

/-- C2 — counterexample.  The claim asserts that callback data with the
wrong number of colon-delimited fields surfaces a user-facing "could
not find the original message" response; on `tag:1:2:3` (four fields)
the handler sends nothing at all and returns. -/
theorem c2_counterexample :
    handleTagCallback dbEmpty cbArityFour = (dbEmpty, []) := by decide

/-- C2 (amended): in the reply path, a quoted bot message without the
`[MSG_ID:` marker or its closing bracket, or with a non-decimal id,
yields a recoverable parse failure that surfaces the user-facing
`Could not find the original message to tag.` response; malformed
callback data (wrong arity or non-numeric fields), however, is only
logged: the handler completes without panicking, sends no user-facing
response and changes no state (it never proceeds with a wrong id). -/
theorem c2_parse_errors :
    (∀ (db : DB) (m : IncomingMsg) (r : List Char),
      m.replyToText = some r → parseMsgIdFromText r = none →
      handleTagSelection db m = (db, [Out.sendMsg m.chatId errNoOriginalText])) ∧
    (∀ (db : DB) (cb : CallbackQuery), tagCallbackDecode cb.data = none →
      handleTagCallback db cb = (db, [])) ∧
    (∀ (db : DB) (cb : CallbackQuery), newTagCallbackDecode cb.data = none →
      handleNewTagCallback db cb = (db, [])) :=
  ⟨handleTagSelection_parse_none, handleTagCallback_decode_none,
   handleNewTagCallback_decode_none⟩

/-- C2 — witness: a reply quoting the marker-less button prompt gets
the generic response; `tag:9` (two fields) gets nothing. -/
theorem c2_parse_errors_witness :
    handleTagSelection dbEmpty mReplyToButtons =
      (dbEmpty, [Out.sendMsg 5 errNoOriginalText]) ∧
    handleTagCallback dbEmpty cbArityTwo = (dbEmpty, []) :=
  ⟨c2_parse_errors.1 dbEmpty mReplyToButtons buttonsPromptText rfl (by decide),
   c2_parse_errors.2.1 dbEmpty cbArityTwo (by decide)⟩

/-- C3: for a `tag:<tagId>:<msgId>` press whose tag id belongs to no
tag of the sender — the name lookup being scoped by
`(tag_id, user_id)` — the operation fails with the `Could not find the
tag.` message and the database (in particular the `message_tags` link
table) is unchanged. -/
theorem c3_foreign_tag (db : DB) (cb : CallbackQuery) (tagId mid : Int)
    (hdec : tagCallbackDecode cb.data = some (tagId, mid))
    (hres : (getMessageByTelegramID db cb.fromId mid).isSome = true)
    (hown : ∀ t ∈ db.tags, t.id = tagId → t.userId ≠ cb.fromId) :
    handleTagCallback db cb = (db, [Out.sendMsg cb.chatId errCouldNotFindTagText]) := by
  rw [handleTagCallback_decode_some db cb tagId mid hdec]
  obtain ⟨dbMid, hde⟩ := Option.isSome_iff_exists.mp hres
  have hname : tagNameScoped db tagId cb.fromId = none := by
    have hfind : db.tags.find? (fun t => t.id == tagId && t.userId == cb.fromId) = none := by
      rw [List.find?_eq_none]
      intro t ht
      simp only [Bool.and_eq_true, beq_iff_eq, not_and]
      intro hid
      exact hown t ht hid
    unfold tagNameScoped
    rw [hfind]
    rfl
  unfold tagCallbackCore
  rw [hde, hname]

/-- C3 — witness: user 12 presses the button of tag 1, which belongs to
user 99; the link table stays empty. -/
theorem c3_foreign_tag_witness :
    handleTagCallback dbForeignTag cbForeignTag =
      (dbForeignTag, [Out.sendMsg 7 errCouldNotFindTagText]) :=
  c3_foreign_tag dbForeignTag cbForeignTag 1 100 (by decide) (by decide) (by decide)

/-- C4: in the reply path, when the trimmed reply parses as the integer
`num`: if `1 ≤ num ≤ tag count` the committed tag is the one at
position `num - 1` of the user's tags in the name-ascending order
`getUserTags` returns (given the schema's `(user_id, name)` uniqueness
invariant), and only the link table changes; if `num < 1` or
`num > tag count`, the user gets the `Invalid tag number` validation
error and nothing is created or linked. -/
theorem c4_numeric_selection (db : DB) (m : IncomingMsg) (r : List Char)
    (mid dbMid num : Int)
    (h : m.replyToText = some r) (hp : parseMsgIdFromText r = some mid)
    (hg : getMessageByTelegramID db m.fromId mid = some dbMid)
    (ha : goAtoi (trimSpace m.text) = some num) :
    (∀ t : TagRow, 1 ≤ num → num ≤ ((getUserTags db m.fromId).length : Int) →
      (db.tags.map fun x => (x.userId, x.name)).Nodup →
      (getUserTags db m.fromId)[(num - 1).toNat]? = some t →
      handleTagSelection db m =
        (tagMessage db dbMid t.id, [Out.sendMsg m.chatId (confirmTaggedText t.name)])) ∧
    ((num < 1 ∨ ((getUserTags db m.fromId).length : Int) < num) →
      handleTagSelection db m = (db, [Out.sendMsg m.chatId errInvalidTagNumberText])) := by
  constructor
  · intro t hn1 hn2 huniq ht
    rw [handleTagSelection_numeric_ok db m r mid dbMid num t h hp hg ha hn1 hn2 ht]
    have hmem := mem_getUserTags (List.getElem?_mem ht)
    exact commitTag_existing db m dbMid t hmem.1 hmem.2 huniq
  · intro hn
    exact handleTagSelection_numeric_oob db m r mid dbMid num h hp hg ha hn

/-- C4 — witness: the spec scenario.  User 12 owns tags stored as
`c`, `a`, `b`; replying `2` to the prompt for message 777 links tag
`b` (id 2), while replying `7` is rejected. -/
theorem c4_numeric_selection_witness :
    handleTagSelection dbAbc mReplyTwo =
      (tagMessage dbAbc 50 2, [Out.sendMsg 1 (confirmTaggedText (("b").toList))]) ∧
    handleTagSelection dbAbc mReplySeven =
      (dbAbc, [Out.sendMsg 1 errInvalidTagNumberText]) :=
  ⟨(c4_numeric_selection dbAbc mReplyTwo replyPrompt777 777 50 2
      (by decide) (by decide) (by decide) (by decide)).1
      ⟨2, 12, ("b").toList, none⟩ (by decide) (by decide) (by decide) (by decide),
   (c4_numeric_selection dbAbc mReplySeven replyPrompt777 777 50 7
      (by decide) (by decide) (by decide) (by decide)).2 (by decide)⟩

/-- C5 — counterexample.  The claim asserts that when the insert of
`getOrCreateTag` fails with a uniqueness-constraint violation (the row
having been created concurrently), the operation retries the lookup and
returns the existing tag id; in fact the result is the error itself,
not a success. -/
theorem c5_counterexample :
    (getOrCreateTagFlow (Except.error DbErr.noRows)
      (Except.error DbErr.uniqueViolation)).isOk = false := rfl

/-- C5 (amended): after the lookup reports no rows, `getOrCreateTag`
returns the insert's outcome unchanged — an insert-time
uniqueness-constraint violation is propagated to the caller as a hard
failure, with no retry of the lookup; only when the initial lookup
finds the row is its id returned without inserting. -/
theorem c5_insert_error_propagates :
    (∀ ins : Except DbErr Int,
      getOrCreateTagFlow (Except.error DbErr.noRows) ins = ins) ∧
    (∀ (tagID : Int) (ins : Except DbErr Int),
      getOrCreateTagFlow (Except.ok tagID) ins = Except.ok tagID) :=
  ⟨fun _ => rfl, fun _ _ => rfl⟩

/-- C6 — counterexample.  The claim asserts every failure path of the
tag-selection flow sends exactly one user-visible message; the button
path with non-numeric tag id `tag:abc:123` fails by returning silently,
with no message at all. -/
theorem c6_counterexample :
    handleTagCallback dbEmpty cbBadTagId = (dbEmpty, []) := by decide

/-- C6 (amended): every path of the reply-path handler sends exactly
one user-visible message; in the button-path handlers, callback data
that fails to decode is only logged — the handler completes with no
user-visible message and no state change — while every path after a
successful decode sends exactly one user-visible message (success paths
additionally edit the existing prompt). -/
theorem c6_failure_messages :
    (∀ (db : DB) (m : IncomingMsg), sendCount (handleTagSelection db m).2 = 1) ∧
    (∀ (db : DB) (cb : CallbackQuery), tagCallbackDecode cb.data = none →
      handleTagCallback db cb = (db, [])) ∧
    (∀ (db : DB) (cb : CallbackQuery) (p : Int × Int),
      tagCallbackDecode cb.data = some p →
      sendCount (handleTagCallback db cb).2 = 1) ∧
    (∀ (db : DB) (cb : CallbackQuery), newTagCallbackDecode cb.data = none →
      handleNewTagCallback db cb = (db, [])) ∧
    (∀ (db : DB) (cb : CallbackQuery) (mid : Int),
      newTagCallbackDecode cb.data = some mid →
      sendCount (handleNewTagCallback db cb).2 = 1) := by
  refine ⟨handleTagSelection_sendCount, handleTagCallback_decode_none, ?_,
    handleNewTagCallback_decode_none, ?_⟩
  · intro db cb p hdec
    rcases p with ⟨a, b⟩
    rw [handleTagCallback_decode_some db cb a b hdec]
    exact tagCallbackCore_sendCount db cb a b
  · intro db cb mid hdec
    rw [handleNewTagCallback_decode_some db cb mid hdec]
    rfl

/-- C6 — witness: one send on a non-reply message; nothing on a
two-field `tag:` press; one send on a well-formed `tag:` press and on a
well-formed `new_tag:` press. -/
theorem c6_failure_messages_witness :
    sendCount (handleTagSelection dbEmpty mPlain).2 = 1 ∧
    handleTagCallback dbEmpty cbArityTwo = (dbEmpty, []) ∧
    sendCount (handleTagCallback dbAbc cbGoodTag).2 = 1 ∧
    sendCount (handleNewTagCallback dbEmpty cbGoodNewTag).2 = 1 :=
  ⟨c6_failure_messages.1 dbEmpty mPlain,
   c6_failure_messages.2.1 dbEmpty cbArityTwo (by decide),
   c6_failure_messages.2.2.1 dbAbc cbGoodTag (2, 777) (by decide),
   c6_failure_messages.2.2.2.2 dbEmpty cbGoodNewTag 8 (by decide)⟩

/-- C7: `getMessageType` returns exactly one `MessageType`, following
the priority order photo, video, document, audio, voice, video_note,
sticker, else text; since the statement quantifies over all messages,
the first matching media field wins whatever the `text` and `caption`
fields hold. -/
theorem c7_classify (m : TgMessage) :
    (m.photo.isSome = true → getMessageType m = MessageType.photo) ∧
    (m.photo = none → m.video.isSome = true →
      getMessageType m = MessageType.video) ∧
    (m.photo = none → m.video = none → m.document.isSome = true →
      getMessageType m = MessageType.document) ∧
    (m.photo = none → m.video = none → m.document = none →
      m.audio.isSome = true → getMessageType m = MessageType.audio) ∧
    (m.photo = none → m.video = none → m.document = none → m.audio = none →
      m.voice.isSome = true → getMessageType m = MessageType.voice) ∧
    (m.photo = none → m.video = none → m.document = none → m.audio = none →
      m.voice = none → m.videoNote.isSome = true →
      getMessageType m = MessageType.videoNote) ∧
    (m.photo = none → m.video = none → m.document = none → m.audio = none →
      m.voice = none → m.videoNote = none → m.sticker.isSome = true →
      getMessageType m = MessageType.sticker) ∧
    (m.photo = none → m.video = none → m.document = none → m.audio = none →
      m.voice = none → m.videoNote = none → m.sticker = none →
      getMessageType m = MessageType.text) := by
  refine ⟨?_, ?_, ?_, ?_, ?_, ?_, ?_, ?_⟩ <;>
    intros <;> simp_all [getMessageType]

/-- C7 — witness: a message with every media field plus text and
caption classifies as photo; a sticker-only message as sticker; a plain
text message as text. -/
theorem c7_classify_witness :
    getMessageType msgAllMedia = MessageType.photo ∧
    getMessageType msgSticker = MessageType.sticker ∧
    getMessageType msgPlainText = MessageType.text :=
  ⟨(c7_classify msgAllMedia).1 rfl,
   (c7_classify msgSticker).2.2.2.2.2.2.1 rfl rfl rfl rfl rfl rfl rfl,
   (c7_classify msgPlainText).2.2.2.2.2.2.2 rfl rfl rfl rfl rfl rfl rfl⟩

set_option maxRecDepth 8000 in
/-- C8 — counterexample.  The claim asserts the stored preview equals
the input unchanged when it is at most 150 *characters* long.  A
76-character string of two-byte UTF-8 characters (`я`, bytes 209 143)
is 76 ≤ 150 characters but 152 bytes, and `truncateText` (which
measures and slices Go strings in bytes) alters it — splitting the
76th character. -/
theorem c8_counterexample :
    (List.replicate 76 ([209, 143] : List Nat)).length ≤ 150 ∧
    truncateText (List.replicate 76 ([209, 143] : List Nat)).flatten 150 ≠
      truncateTextSpecChars (List.replicate 76 ([209, 143] : List Nat)) := by
  constructor
  · decide
  · decide

/-- C8 (amended): for every non-empty text or caption the stored
preview equals the input unchanged when it is at most 150 *bytes* long,
and otherwise equals the first 150 bytes — which may split a multibyte
character — followed by the truncation marker `...`. -/
theorem c8_byte_truncation (text : List Nat) (h : text ≠ []) :
    (text.length ≤ 150 → savePreview text = some text) ∧
    (150 < text.length →
      savePreview text = some (text.take 150 ++ ellipsisBytes)) := by
  constructor
  · intro hl
    unfold savePreview truncateText
    rw [if_neg h, if_pos hl]
  · intro hl
    unfold savePreview truncateText
    rw [if_neg h, if_neg (by omega)]

set_option maxRecDepth 8000 in
/-- C8 — witness: a two-byte text is stored unchanged; a 200-byte text
is cut at 150 bytes plus the marker. -/
theorem c8_byte_truncation_witness :
    savePreview [104, 105] = some [104, 105] ∧
    savePreview (List.replicate 200 65) =
      some ((List.replicate 200 65).take 150 ++ ellipsisBytes) :=
  ⟨(c8_byte_truncation [104, 105] (by decide)).1 (by decide),
   (c8_byte_truncation (List.replicate 200 65) (by decide)).2 (by decide)⟩

/-- C9: the tag picker renders as an inline button keyboard exactly
when the user's tag count is at most 20 — the keyboard listing the tags
two per row (every row but the trailing one has one or two buttons, and
their labels enumerate the tags in order) with a trailing
`➕ Create New Tag` row — and as the numbered text prompt with a
forced-reply directive exactly when the count exceeds 20. -/
theorem c9_mode_selection (db : DB) (m : IncomingMsg) :
    ((getUserTags db m.fromId).length ≤ 20 ↔
      (showTagSelection db m).isButtons = true) ∧
    (∀ text kb, showTagSelection db m = TagPrompt.buttons text kb →
      kb.getLast? = some [newTagButton m.messageId] ∧
      kb.dropLast.flatten =
        (getUserTags db m.fromId).map (fun t => tagButton t m.messageId) ∧
      ∀ row ∈ kb.dropLast, 1 ≤ row.length ∧ row.length ≤ 2) ∧
    (20 < (getUserTags db m.fromId).length →
      showTagSelection db m =
        TagPrompt.textList (textPromptText (getUserTags db m.fromId) m.messageId)
          true) := by
  by_cases hle : (getUserTags db m.fromId).length ≤ 20
  · have hshow : showTagSelection db m =
        showTagSelectionWithButtons (getUserTags db m.fromId) m.messageId := by
      unfold showTagSelection
      rw [if_pos hle]
    refine ⟨?_, ?_, ?_⟩
    · rw [hshow]
      unfold showTagSelectionWithButtons
      constructor
      · intro _
        split <;> rfl
      · intro _
        exact hle
    · intro text kb heq
      rw [hshow] at heq
      unfold showTagSelectionWithButtons at heq
      by_cases hnil : getUserTags db m.fromId = []
      · rw [if_pos hnil] at heq
        cases heq
        refine ⟨rfl, ?_, ?_⟩
        · rw [hnil]
          rfl
        · intro row hrow
          simp at hrow
      · rw [if_neg hnil] at heq
        cases heq
        refine ⟨List.getLast?_concat _, ?_, ?_⟩
        · rw [List.dropLast_concat, tagButtonRows_flatten]
        · intro row hrow
          rw [List.dropLast_concat] at hrow
          exact tagButtonRows_rowLen m.messageId _ row hrow
    · intro hgt
      omega
  · have hshow : showTagSelection db m =
        showTagSelectionWithText (getUserTags db m.fromId) m.messageId := by
      unfold showTagSelection
      rw [if_neg hle]
    refine ⟨?_, ?_, ?_⟩
    · rw [hshow]
      unfold showTagSelectionWithText TagPrompt.isButtons
      constructor
      · intro h
        exact absurd h hle
      · intro h
        exact absurd h (by simp)
    · intro text kb heq
      rw [hshow] at heq
      exact absurd heq (by unfold showTagSelectionWithText; simp)
    · intro _
      rw [hshow]
      rfl

set_option maxRecDepth 8000 in
/-- C9 — witness: one tag renders as buttons; 21 tags render as the
numbered forced-reply text prompt. -/
theorem c9_mode_selection_witness :
    (showTagSelection dbOneTag mPlain).isButtons = true ∧
    showTagSelection dbManyTags mPlain =
      TagPrompt.textList (textPromptText (getUserTags dbManyTags 10) 7) true :=
  ⟨(c9_mode_selection dbOneTag mPlain).1.mp (by decide),
   (c9_mode_selection dbManyTags mPlain).2.2 (by decide)⟩

/-- C10: a reply whose trimmed text parses as a decimal integer is
always interpreted as a positional index, never as a literal tag name:
the tag table is left unchanged (no tag named by that numeral is ever
created), and an out-of-range number — even one that coincides with an
existing tag's name — yields the `Invalid tag number` error instead of
selecting or creating a tag by name. -/
theorem c10_numeric_never_name (db : DB) (m : IncomingMsg) (r : List Char)
    (mid dbMid num : Int)
    (h : m.replyToText = some r) (hp : parseMsgIdFromText r = some mid)
    (hg : getMessageByTelegramID db m.fromId mid = some dbMid)
    (ha : goAtoi (trimSpace m.text) = some num) :
    (handleTagSelection db m).1.tags = db.tags ∧
    ((num < 1 ∨ ((getUserTags db m.fromId).length : Int) < num) →
      handleTagSelection db m = (db, [Out.sendMsg m.chatId errInvalidTagNumberText])) := by
  constructor
  · by_cases hn : num < 1 ∨ ((getUserTags db m.fromId).length : Int) < num
    · rw [handleTagSelection_numeric_oob db m r mid dbMid num h hp hg ha hn]
    · rw [not_or] at hn
      have hb : (num - 1).toNat < (getUserTags db m.fromId).length := by omega
      rw [handleTagSelection_numeric_ok db m r mid dbMid num _ h hp hg ha
        (by omega) (by omega) (List.getElem?_eq_getElem hb)]
      have hmem := mem_getUserTags (List.getElem_mem hb)
      exact commitTag_existing_tags db m dbMid _ hmem.1 hmem.2
  · intro hn
    exact handleTagSelection_numeric_oob db m r mid dbMid num h hp hg ha hn

/-- C10 — witness: user 12's only tag is literally named `5`; replying
`5` is read as the out-of-range index 5, the user gets the validation
error, and the tag table (still that one tag) is untouched. -/
theorem c10_numeric_never_name_witness :
    (handleTagSelection dbTagNamedFive mReplyFive).1.tags = dbTagNamedFive.tags ∧
    handleTagSelection dbTagNamedFive mReplyFive =
      (dbTagNamedFive, [Out.sendMsg 1 errInvalidTagNumberText]) :=
  ⟨(c10_numeric_never_name dbTagNamedFive mReplyFive replyPrompt777 777 50 5
      (by decide) (by decide) (by decide) (by decide)).1,
   (c10_numeric_never_name dbTagNamedFive mReplyFive replyPrompt777 777 50 5
      (by decide) (by decide) (by decide) (by decide)).2 (by decide)⟩

end TgBot



